import Mathlib

/-!
Shallow embedding of the go-mocktesting recording test double (`T` in
`t.go`), together with the `Go` isolated-invocation helper and the
functional options.  Go machine state is modelled functionally: each
method of `*T` becomes a function from the receiver state to a new state
(paired with a control signal where the method may call
`runtime.Goexit()`).  `time.Time` and `time.Duration` are modelled as
`Int` (the zero `time.Time{}` is `0`); `os.TempDir()` and `time.Now()`
are threaded as explicit parameters where the source calls them.
-/

namespace Mocktesting

/-- Values passed as `...interface{}` arguments to the logging methods.
The model covers the two kinds of values the repository and its spec use:
strings and integers. -/
inductive GoValue where
  | str (s : String)
  | int (n : Int)

/-- Default (`%v`) rendering of a value by Go's `fmt` package. -/
def GoValue.render : GoValue → String
  | .str s => s
  | .int n => toString n

/-- `fmt.Sprintln(args...)`: operands rendered with their default form,
a single space always added between operands, and a newline appended. -/
def sprintln (args : List GoValue) : String :=
  String.intercalate " " (args.map GoValue.render) ++ "\n"

/-- Whether a value is a string operand. -/
def GoValue.isStr : GoValue → Bool
  | .str _ => true
  | .int _ => false

/-- Modelled from the spec (the rendering rule claimed for `Log`):
arguments' default string forms, separated by a single space only when
neither neighbor is already a string. -/
def sprintSpecSep : List GoValue → String
  | [] => ""
  | [a] => a.render
  | a :: b :: rest =>
    a.render ++ (if ¬ a.isStr = true ∧ ¬ b.isStr = true then " " else "")
      ++ sprintSpecSep (b :: rest)

/-- Modelled from the spec: the claimed `Log` rendering, a line with the
space-only-between-non-strings separator rule and a trailing newline. -/
def sprintSpec (args : List GoValue) : String :=
  sprintSpecSep args ++ "\n"

/-- Rendering of a single `%s` or `%d` verb against one operand,
including Go's bad-verb forms such as `%!d(string=...)`. -/
def renderVerb (v : Char) (a : GoValue) : List Char :=
  if v = 's' then
    match a with
    | .str s => s.data
    | .int n => ("%!s(int=" ++ toString n ++ ")").data
  else
    match a with
    | .int n => (toString n).data
    | .str s => ("%!d(string=" ++ s ++ ")").data

/-- `fmt.Sprintf` over the fragment of format strings the repository and
its spec exercise: literal characters, `%s`, `%d` and `%%`.  A verb with
no remaining operand renders Go's `(MISSING)` form; other `%`-sequences
are emitted literally and surplus operands are ignored. -/
def sprintfChars : List Char → List GoValue → List Char
  | [], _ => []
  | [c], _ => [c]
  | c :: v :: cs, args =>
    if c = '%' then
      if v = '%' then '%' :: sprintfChars cs args
      else if v = 's' ∨ v = 'd' then
        match args with
        | a :: rest => renderVerb v a ++ sprintfChars cs rest
        | [] => ("%!".data ++ [v] ++ "(MISSING)".data) ++ sprintfChars cs []
      else c :: v :: sprintfChars cs args
    else c :: sprintfChars (v :: cs) args

/-- `fmt.Sprintf(format, args...)` on `String`. -/
def sprintf (format : String) (args : List GoValue) : String :=
  ⟨sprintfChars format.data args⟩

/-- `strings.ReplaceAll(name, " ", "_")`: the pattern is a single
character, so the replacement is a character-wise map. -/
def normalizeName (s : String) : String :=
  ⟨s.data.map (fun c => if c = ' ' then '_' else c)⟩

/-- Control signal of a method call: `stop` models `runtime.Goexit()`
having terminated the invoking goroutine, `cont` normal continuation. -/
inductive Ctl where
  | cont
  | stop
deriving DecidableEq

/-- The fields of `T` other than the `subtests` list, mirroring the
struct in `t.go`.  `testingT` is an opaque handle to the upstream
reporter (`nil` = `none`); `mkdirTempFunc` keeps the source's optional
test hook; the embedded `*testing.T` and the mutex carry no modelled
state. -/
structure TCore where
  name : String
  abort : Bool
  baseTempdir : String
  testingT : Option Nat
  deadline : Int
  timeout : Bool
  skipped : Bool
  failed : Nat
  parallel : Bool
  output : List String
  helpers : List String
  aborted : Bool
  cleanups : List (Unit → Unit)
  env : List (String × String)
  tempdirs : List String
  subtestNames : List String
  mkdirTempFunc : Option (String → String → Except String String)

/-- The recording test double `T`.  The `subtests` field holds the
children appended by `Run`; since the Go parent stores pointers to its
children, a stored child is represented by its final state. -/
inductive T where
  | mk (core : TCore) (subtests : List T)

/-- The non-recursive fields of a `T`. -/
def T.core : T → TCore
  | .mk c _ => c

/-- The recorded sub-test instances of a `T`. -/
def T.subtests : T → List T
  | .mk _ s => s

/-- Replace the non-recursive fields of a `T`. -/
def T.modifyCore (t : T) (f : TCore → TCore) : T :=
  .mk (f t.core) t.subtests

/-- `t.subtests = append(t.subtests, s)`. -/
def T.pushSubtest (t : T) (s : T) : T :=
  .mk t.core (t.subtests ++ [s])

/-- The functional options accepted by `NewT`, as a closed datatype
(the source's `Option` interface has exactly these five constructors). -/
inductive TOption where
  | withTimeout (d : Int)
  | withDeadline (d : Int)
  | withNoAbort
  | withBaseTempdir (dir : String)
  | withTestingT (reporter : Option Nat)

/-- `opt.apply(t)` for each option.  `WithTimeout` reads `time.Now()`,
threaded here as `now`; the zero `time.Time{}` is `0`. -/
def TOption.apply (now : Int) (opt : TOption) (t : T) : T :=
  match opt with
  | .withTimeout d =>
    if d > 0 then
      t.modifyCore fun c => { c with timeout := true, deadline := now + d }
    else
      t.modifyCore fun c => { c with timeout := false, deadline := 0 }
  | .withDeadline d =>
    if d ≠ 0 then
      t.modifyCore fun c => { c with timeout := true, deadline := d }
    else
      t.modifyCore fun c => { c with timeout := false, deadline := 0 }
  | .withNoAbort => t.modifyCore fun c => { c with abort := false }
  | .withBaseTempdir dir =>
    if dir ≠ "" then t.modifyCore fun c => { c with baseTempdir := dir } else t
  | .withTestingT reporter =>
    t.modifyCore fun c => { c with testingT := reporter }

/-- `10 * time.Minute` in nanoseconds. -/
def tenMinutes : Int := 600000000000

/-- `NewT(name, options...)`: defaults (abort on, deadline ten minutes
from now, base temp dir `os.TempDir()`), then the options in order.
`now` and `osTempDir` stand for `time.Now()` and `os.TempDir()`. -/
def NewT (now : Int) (osTempDir : String) (name : String)
    (options : List TOption) : T :=
  let c : TCore :=
    { name := normalizeName name
      abort := true
      baseTempdir := osTempDir
      testingT := none
      deadline := now + tenMinutes
      timeout := true
      skipped := false
      failed := 0
      parallel := false
      output := []
      helpers := []
      aborted := false
      cleanups := []
      env := []
      tempdirs := []
      subtestNames := []
      mkdirTempFunc := none }
  options.foldl (fun t opt => opt.apply now t) (T.mk c [])

/-- `t.goexit()`: set `aborted`, then `runtime.Goexit()` unless abort is
disabled.  The `Ctl` component records whether the goroutine stopped. -/
def T.goexit (t : T) : T × Ctl :=
  let t := t.modifyCore fun c => { c with aborted := true }
  (t, if t.core.abort then .stop else .cont)

/-- `t.Name()`. -/
def T.Name (t : T) : String := t.core.name

/-- `t.Deadline()`. -/
def T.Deadline (t : T) : Int × Bool := (t.core.deadline, t.core.timeout)

/-- `t.Fail()`: increment the failure counter. -/
def T.Fail (t : T) : T :=
  t.modifyCore fun c => { c with failed := c.failed + 1 }

/-- `t.Failed()`. -/
def T.Failed (t : T) : Bool := t.core.failed > 0

/-- `t.FailedCount()`. -/
def T.FailedCount (t : T) : Nat := t.core.failed

/-- `t.FailNow()`: `Fail()` then `goexit()`. -/
def T.FailNow (t : T) : T × Ctl := t.Fail.goexit

/-- `t.Log(args...)`: append `fmt.Sprintln(args...)` to `output`. -/
def T.Log (t : T) (args : List GoValue) : T :=
  t.modifyCore fun c => { c with output := c.output ++ [sprintln args] }

/-- The newline fix-up in `Logf`: Go appends `"\n"` to the format string
when it is empty or its last byte is not `'\n'` (equivalently, when the
last character is not `'\n'`). -/
def fixFormat (format : String) : String :=
  if format.data.getLast? = some '\n' then format else format ++ "\n"

/-- `t.Logf(format, args...)`: fix the format's trailing newline, then
append `fmt.Sprintf(format, args...)` to `output`. -/
def T.Logf (t : T) (format : String) (args : List GoValue) : T :=
  t.modifyCore fun c =>
    { c with output := c.output ++ [sprintf (fixFormat format) args] }

/-- `t.Error(args...)`: `Log` then `Fail`. -/
def T.Error (t : T) (args : List GoValue) : T := (t.Log args).Fail

/-- `t.Errorf(format, args...)`: `Logf` then `Fail`. -/
def T.Errorf (t : T) (format : String) (args : List GoValue) : T :=
  (t.Logf format args).Fail

/-- `t.Fatal(args...)`: `Log` then `FailNow`. -/
def T.Fatal (t : T) (args : List GoValue) : T × Ctl := (t.Log args).FailNow

/-- `t.Fatalf(format, args...)`: `Logf` then `FailNow`. -/
def T.Fatalf (t : T) (format : String) (args : List GoValue) : T × Ctl :=
  (t.Logf format args).FailNow

/-- `t.Parallel()`. -/
def T.Parallel (t : T) : T :=
  t.modifyCore fun c => { c with parallel := true }

/-- `t.Paralleled()`. -/
def T.Paralleled (t : T) : Bool := t.core.parallel

/-- `t.SkipNow()`: set `skipped`, then `goexit()`. -/
def T.SkipNow (t : T) : T × Ctl :=
  (t.modifyCore fun c => { c with skipped := true }).goexit

/-- `t.Skip(args...)`: `Log` then `SkipNow`. -/
def T.Skip (t : T) (args : List GoValue) : T × Ctl := (t.Log args).SkipNow

/-- `t.Skipf(format, args...)`: `Logf` then `SkipNow`. -/
def T.Skipf (t : T) (format : String) (args : List GoValue) : T × Ctl :=
  (t.Logf format args).SkipNow

/-- `t.Skipped()`. -/
def T.Skipped (t : T) : Bool := t.core.skipped

/-- `t.Aborted()`. -/
def T.Aborted (t : T) : Bool := t.core.aborted

/-- `t.Helper()`: append the caller's resolved function name.  Call-stack
introspection (`runtime.Caller`/`runtime.FuncForPC`) is modelled by the
explicit `callerName` parameter. -/
def T.Helper (t : T) (callerName : String) : T :=
  t.modifyCore fun c => { c with helpers := c.helpers ++ [callerName] }

/-- `t.Cleanup(f)`: record the callback, never invoke it. -/
def T.Cleanup (t : T) (f : Unit → Unit) : T :=
  t.modifyCore fun c => { c with cleanups := c.cleanups ++ [f] }

/-- Update of a Go `map[string]string` at a key. -/
def envSet (env : List (String × String)) (k v : String) :
    List (String × String) :=
  if env.any (fun p => p.1 = k) then
    env.map (fun p => if p.1 = k then (k, v) else p)
  else env ++ [(k, v)]

/-- `t.Setenv(key, value)`: record the pair unless the key is empty. -/
def T.Setenv (t : T) (key value : String) : T :=
  if key ≠ "" then t.modifyCore fun c => { c with env := envSet c.env key value }
  else t

/-- Outcome of `t.TempDir()`: a created directory, a `Fatal` on the
upstream reporter, or a panic.  The failing outcomes carry the double's
(unchanged) state; the messages include the two `fmt.Errorf` wrappings. -/
inductive TempDirOutcome where
  | ok (dir : String) (t : T)
  | reporterFatal (reporter : Nat) (msg : String) (t : T)
  | panicked (msg : String) (t : T)

/-- `t.TempDir()`: create a directory under `baseTempdir` via
`mkdirTempFunc` (or `ioutil.TempDir`, modelled by the `osMkdir`
parameter); on failure route the wrapped error through
`internalError`. A `Fatal` on the reporter terminates the invoking
goroutine, so the failing outcomes leave the double untouched. -/
def T.TempDir (osMkdir : String → String → Except String String) (t : T) :
    TempDirOutcome :=
  let f := t.core.mkdirTempFunc.getD osMkdir
  match f t.core.baseTempdir "go-mocktesting*" with
  | .ok dir =>
    .ok dir (t.modifyCore fun c => { c with tempdirs := c.tempdirs ++ [dir] })
  | .error e =>
    let msg := "mocktesting: " ++ ("TempDir() failed to create directory: " ++ e)
    match t.core.testingT with
    | some r => .reporterFatal r msg t
    | none => .panicked msg t

/-- `fmt.Sprintf("%02d", i)`: decimal, zero-padded to width two. -/
def pad2 (i : Nat) : String :=
  if i < 10 then "0" ++ Nat.repr i else Nat.repr i

/-- The `for` loop of `newSubTestName`, searching from counter `i` for
the first `name + "#" + %02d` candidate not yet used.  The Go loop is
unbounded; `fuel` makes it structurally terminating and is chosen large
enough that it never runs out (see the lemmas below). -/
def subNameLoop (used : List String) (name : String) : Nat → Nat → String
  | _, 0 => name
  | i, fuel + 1 =>
    let n := name ++ "#" ++ pad2 i
    if used.contains n then subNameLoop used name (i + 1) fuel else n

/-- `t.newSubTestName(name)`: normalize spaces, use the name as-is when
unused, else search `#NN` suffixes from `01` upward. -/
def T.newSubTestName (t : T) (name : String) : String :=
  let name := normalizeName name
  if !(t.core.subtestNames.contains name) then name
  else subNameLoop t.core.subtestNames name 1 (t.core.subtestNames.length + 1)

/-- The child `T` constructed at the top of `Run`, before the body runs:
`NewT(fullname)` with the five configuration fields overwritten by the
parent's current values. -/
def T.subtestInit (now : Int) (osTempDir : String) (t : T) (name : String) : T :=
  let name := t.newSubTestName name
  let fullname := if t.core.name ≠ "" then t.core.name ++ "/" ++ name else name
  let subtest := NewT now osTempDir fullname []
  subtest.modifyCore fun c =>
    { c with
      abort := t.core.abort
      baseTempdir := t.core.baseTempdir
      testingT := t.core.testingT
      deadline := t.core.deadline
      timeout := t.core.timeout }

/-- `t.Run(name, f)`: disambiguate the name, build the child, record it
and its name, run the body in an isolated goroutine (`Go(...)` joins the
goroutine whether it returns or exits early, so the child's final state
is `(body child).1`), propagate a child failure as one `t.Fail()`, and
return whether the child did not fail.  The Go parent stores a pointer
to the child, so `subtests` receives the child's final state. -/
def T.Run (now : Int) (osTempDir : String) (t : T) (name : String)
    (body : T → T × Ctl) : T × Bool :=
  let subtest := (body (t.subtestInit now osTempDir name)).1
  let dname := t.newSubTestName name
  let t := t.modifyCore fun c =>
    { c with subtestNames := c.subtestNames ++ [dname] }
  let t := t.pushSubtest subtest
  let t := if subtest.Failed then t.Fail else t
  (t, !subtest.Failed)

/-- `t.Output()`. -/
def T.Output (t : T) : List String := t.core.output

/-- `t.HelperNames()`. -/
def T.HelperNames (t : T) : List String := t.core.helpers

/-- `t.TempDirs()`. -/
def T.TempDirs (t : T) : List String := t.core.tempdirs

/-- Sequencing of two steps on the same goroutine: after
`runtime.Goexit()` the second step never executes. -/
def andThen (a b : T → T × Ctl) : T → T × Ctl :=
  fun t =>
    match a t with
    | (t', Ctl.stop) => (t', Ctl.stop)
    | (t', Ctl.cont) => b t'

/-- One mutator call on a `T`, covering the double's whole mutator face.
Terminating calls are taken in isolated invocations (`Go(...)`), so each
op contributes its state change and the sequence continues.  Environment
inputs the source reads (`time.Now()`, `os.TempDir()`, caller identity,
the OS temp-dir primitive) travel inside the constructor. -/
inductive Op where
  | fail
  | failNow
  | error (args : List GoValue)
  | errorf (format : String) (args : List GoValue)
  | fatal (args : List GoValue)
  | fatalf (format : String) (args : List GoValue)
  | log (args : List GoValue)
  | logf (format : String) (args : List GoValue)
  | skip (args : List GoValue)
  | skipf (format : String) (args : List GoValue)
  | skipNow
  | parallel
  | helper (callerName : String)
  | cleanup (f : Unit → Unit)
  | setenv (key value : String)
  | tempDir (osMkdir : String → String → Except String String)
  | run (now : Int) (osTempDir : String) (name : String) (body : T → T × Ctl)

/-- The state after one mutator call (run in its own invocation). -/
def applyOp (op : Op) (t : T) : T :=
  match op with
  | .fail => t.Fail
  | .failNow => (t.FailNow).1
  | .error args => t.Error args
  | .errorf format args => t.Errorf format args
  | .fatal args => (t.Fatal args).1
  | .fatalf format args => (t.Fatalf format args).1
  | .log args => t.Log args
  | .logf format args => t.Logf format args
  | .skip args => (t.Skip args).1
  | .skipf format args => (t.Skipf format args).1
  | .skipNow => (t.SkipNow).1
  | .parallel => t.Parallel
  | .helper callerName => t.Helper callerName
  | .cleanup f => t.Cleanup f
  | .setenv key value => t.Setenv key value
  | .tempDir osMkdir =>
    match t.TempDir osMkdir with
    | .ok _ t' => t'
    | .reporterFatal _ _ t' => t'
    | .panicked _ t' => t'
  | .run now osTempDir name body => (t.Run now osTempDir name body).1

/-- The state after a sequence of mutator calls. -/
def applyOps (ops : List Op) (t : T) : T :=
  ops.foldl (fun t op => applyOp op t) t

/-- One failure-reporting call (`Fail`/`Error`/`Errorf`/`Fatal`/`Fatalf`). -/
inductive FailOp where
  | fail
  | error (args : List GoValue)
  | errorf (format : String) (args : List GoValue)
  | fatal (args : List GoValue)
  | fatalf (format : String) (args : List GoValue)

/-- The state after one failure-reporting call (terminating ones run in
isolated invocations, so the state after `Fatal` is `(t.Fatal args).1`). -/
def applyFailOp (op : FailOp) (t : T) : T :=
  match op with
  | .fail => t.Fail
  | .error args => t.Error args
  | .errorf format args => t.Errorf format args
  | .fatal args => (t.Fatal args).1
  | .fatalf format args => (t.Fatalf format args).1

/-- The state after a sequence of failure-reporting calls. -/
def runFailOps (ops : List FailOp) (t : T) : T :=
  ops.foldl (fun t op => applyFailOp op t) t

/-- The configuration snapshot of a `T`: abort flag, deadline, timeout
flag, base temp dir, upstream reporter. -/
def configOf (t : T) : Bool × Int × Bool × String × Option Nat :=
  (t.core.abort, t.core.deadline, t.core.timeout, t.core.baseTempdir,
    t.core.testingT)

/-- A concrete `T` state with a given set of used sub-test names, for
evaluating the naming operations on explicit inputs. -/
def witnessT (subtestNames : List String) : T :=
  T.mk
    { name := "Parent"
      abort := true
      baseTempdir := "/tmp"
      testingT := none
      deadline := 0
      timeout := true
      skipped := false
      failed := 0
      parallel := false
      output := []
      helpers := []
      aborted := false
      cleanups := []
      env := []
      tempdirs := []
      subtestNames := subtestNames
      mkdirTempFunc := none } []

@[simp]
theorem T.core_mk (c : TCore) (s : List T) : (T.mk c s).core = c := rfl

@[simp]
theorem T.subtests_mk (c : TCore) (s : List T) : (T.mk c s).subtests = s := rfl

@[simp]
theorem T.core_modifyCore (t : T) (f : TCore → TCore) :
    (t.modifyCore f).core = f t.core := by
  cases t; rfl

@[simp]
theorem T.subtests_modifyCore (t : T) (f : TCore → TCore) :
    (t.modifyCore f).subtests = t.subtests := by
  cases t; rfl

@[simp]
theorem T.core_pushSubtest (t : T) (s : T) : (t.pushSubtest s).core = t.core := by
  cases t; rfl

@[simp]
theorem T.subtests_pushSubtest (t : T) (s : T) :
    (t.pushSubtest s).subtests = t.subtests ++ [s] := by
  cases t; rfl


theorem applyOp_tempDir (osMkdir : String → String → Except String String)
    (t : T) :
    applyOp (.tempDir osMkdir) t =
      match (t.core.mkdirTempFunc.getD osMkdir) t.core.baseTempdir
          "go-mocktesting*" with
      | .ok dir => t.modifyCore fun c => { c with tempdirs := c.tempdirs ++ [dir] }
      | .error _ => t := by
  simp only [applyOp, T.TempDir]
  rcases hf : (t.core.mkdirTempFunc.getD osMkdir) t.core.baseTempdir
      "go-mocktesting*" with e | dir
  · rcases h : t.core.testingT with _ | r <;> simp [h]
  · simp

theorem failed_mono_applyOp (op : Op) (t : T) :
    t.core.failed ≤ (applyOp op t).core.failed := by
  cases op
  case tempDir osMkdir =>
    rw [applyOp_tempDir]
    split <;> simp
  case run now os name body =>
    simp only [applyOp, T.Run]
    split <;> simp [T.Fail]
  case setenv key value =>
    simp only [applyOp, T.Setenv]
    split <;> simp
  all_goals
    simp [applyOp, T.Fail, T.FailNow, T.Error, T.Errorf, T.Fatal, T.Fatalf,
      T.Log, T.Logf, T.Skip, T.Skipf, T.SkipNow, T.goexit, T.Parallel,
      T.Helper, T.Cleanup]


theorem skipped_mono_applyOp (op : Op) (t : T) (h : t.core.skipped = true) :
    (applyOp op t).core.skipped = true := by
  cases op
  case tempDir osMkdir =>
    rw [applyOp_tempDir]
    split <;> simp [h]
  case run now os name body =>
    simp only [applyOp, T.Run]
    split <;> simp [T.Fail, h]
  case setenv key value =>
    simp only [applyOp, T.Setenv]
    split <;> simp [h]
  all_goals
    simp [applyOp, T.Fail, T.FailNow, T.Error, T.Errorf, T.Fatal, T.Fatalf,
      T.Log, T.Logf, T.Skip, T.Skipf, T.SkipNow, T.goexit, T.Parallel,
      T.Helper, T.Cleanup, h]

theorem aborted_mono_applyOp (op : Op) (t : T) (h : t.core.aborted = true) :
    (applyOp op t).core.aborted = true := by
  cases op
  case tempDir osMkdir =>
    rw [applyOp_tempDir]
    split <;> simp [h]
  case run now os name body =>
    simp only [applyOp, T.Run]
    split <;> simp [T.Fail, h]
  case setenv key value =>
    simp only [applyOp, T.Setenv]
    split <;> simp [h]
  all_goals
    simp [applyOp, T.Fail, T.FailNow, T.Error, T.Errorf, T.Fatal, T.Fatalf,
      T.Log, T.Logf, T.Skip, T.Skipf, T.SkipNow, T.goexit, T.Parallel,
      T.Helper, T.Cleanup, h]

theorem parallel_mono_applyOp (op : Op) (t : T) (h : t.core.parallel = true) :
    (applyOp op t).core.parallel = true := by
  cases op
  case tempDir osMkdir =>
    rw [applyOp_tempDir]
    split <;> simp [h]
  case run now os name body =>
    simp only [applyOp, T.Run]
    split <;> simp [T.Fail, h]
  case setenv key value =>
    simp only [applyOp, T.Setenv]
    split <;> simp [h]
  all_goals
    simp [applyOp, T.Fail, T.FailNow, T.Error, T.Errorf, T.Fatal, T.Fatalf,
      T.Log, T.Logf, T.Skip, T.Skipf, T.SkipNow, T.goexit, T.Parallel,
      T.Helper, T.Cleanup, h]

theorem configOf_applyOp (op : Op) (t : T) :
    configOf (applyOp op t) = configOf t := by
  cases op
  case tempDir osMkdir =>
    rw [applyOp_tempDir]
    split <;> simp [configOf]
  case run now os name body =>
    simp only [applyOp, T.Run]
    split <;> simp [configOf, T.Fail]
  case setenv key value =>
    simp only [applyOp, T.Setenv]
    split <;> simp [configOf]
  all_goals
    simp [configOf, applyOp, T.Fail, T.FailNow, T.Error, T.Errorf, T.Fatal,
      T.Fatalf, T.Log, T.Logf, T.Skip, T.Skipf, T.SkipNow, T.goexit,
      T.Parallel, T.Helper, T.Cleanup]


theorem failed_mono_applyOps (ops : List Op) (t : T) :
    t.core.failed ≤ (applyOps ops t).core.failed := by
  induction ops generalizing t with
  | nil => simp [applyOps]
  | cons op ops ih =>
    calc t.core.failed ≤ (applyOp op t).core.failed := failed_mono_applyOp op t
      _ ≤ (applyOps ops (applyOp op t)).core.failed := ih _
      _ = (applyOps (op :: ops) t).core.failed := by simp [applyOps, List.foldl]

theorem skipped_mono_applyOps (ops : List Op) (t : T)
    (h : t.core.skipped = true) : (applyOps ops t).core.skipped = true := by
  induction ops generalizing t with
  | nil => simpa [applyOps] using h
  | cons op ops ih =>
    have := ih (applyOp op t) (skipped_mono_applyOp op t h)
    simpa [applyOps, List.foldl] using this

theorem aborted_mono_applyOps (ops : List Op) (t : T)
    (h : t.core.aborted = true) : (applyOps ops t).core.aborted = true := by
  induction ops generalizing t with
  | nil => simpa [applyOps] using h
  | cons op ops ih =>
    have := ih (applyOp op t) (aborted_mono_applyOp op t h)
    simpa [applyOps, List.foldl] using this

theorem parallel_mono_applyOps (ops : List Op) (t : T)
    (h : t.core.parallel = true) : (applyOps ops t).core.parallel = true := by
  induction ops generalizing t with
  | nil => simpa [applyOps] using h
  | cons op ops ih =>
    have := ih (applyOp op t) (parallel_mono_applyOp op t h)
    simpa [applyOps, List.foldl] using this

theorem configOf_applyOps (ops : List Op) (t : T) :
    configOf (applyOps ops t) = configOf t := by
  induction ops generalizing t with
  | nil => simp [applyOps]
  | cons op ops ih =>
    calc configOf (applyOps (op :: ops) t)
        = configOf (applyOps ops (applyOp op t)) := by simp [applyOps, List.foldl]
      _ = configOf (applyOp op t) := ih _
      _ = configOf t := configOf_applyOp op t

theorem failed_applyFailOp (op : FailOp) (t : T) :
    (applyFailOp op t).core.failed = t.core.failed + 1 := by
  cases op <;>
    simp [applyFailOp, T.Fail, T.FailNow, T.Error, T.Errorf, T.Fatal,
      T.Fatalf, T.Log, T.Logf, T.goexit]

theorem failed_runFailOps (ops : List FailOp) (t : T) :
    (runFailOps ops t).core.failed = t.core.failed + ops.length := by
  induction ops generalizing t with
  | nil => simp [runFailOps]
  | cons op ops ih =>
    have h1 : runFailOps (op :: ops) t = runFailOps ops (applyFailOp op t) := by
      simp [runFailOps, List.foldl]
    rw [h1, ih, failed_applyFailOp, List.length_cons]
    omega

theorem failed_TOption_apply (now : Int) (opt : TOption) (t : T) :
    (opt.apply now t).core.failed = t.core.failed := by
  cases opt <;> simp only [TOption.apply] <;> (try split) <;> simp

theorem failed_NewT (now : Int) (osTempDir name : String)
    (options : List TOption) :
    (NewT now osTempDir name options).core.failed = 0 := by
  simp only [NewT]
  have key : ∀ (opts : List TOption) (t : T), t.core.failed = 0 →
      (opts.foldl (fun t opt => opt.apply now t) t).core.failed = 0 := by
    intro opts
    induction opts with
    | nil => intro t h; simpa using h
    | cons o os ih =>
      intro t h
      simp only [List.foldl]
      exact ih _ (by rw [failed_TOption_apply]; exact h)
  exact key options _ rfl

/-- C8: over every sequence of mutator operations, `failureCount` never
decreases, and each of `skipped`, `aborted` and `parallelRequested`,
once true, is never reset to false. -/
theorem claim_C8_monotone_state (ops : List Op) (t : T) :
    t.core.failed ≤ (applyOps ops t).core.failed ∧
    (t.core.skipped = true → (applyOps ops t).core.skipped = true) ∧
    (t.core.aborted = true → (applyOps ops t).core.aborted = true) ∧
    (t.core.parallel = true → (applyOps ops t).core.parallel = true) :=
  ⟨failed_mono_applyOps ops t, skipped_mono_applyOps ops t,
    aborted_mono_applyOps ops t, parallel_mono_applyOps ops t⟩

theorem claim_C8_monotone_state_witness :
    (applyOps [Op.fail]
      (applyOps [Op.parallel, Op.skipNow] (NewT 0 "/tmp" "x" []))).core.skipped
        = true ∧
    (applyOps [Op.fail]
      (applyOps [Op.parallel, Op.skipNow] (NewT 0 "/tmp" "x" []))).core.aborted
        = true ∧
    (applyOps [Op.fail]
      (applyOps [Op.parallel, Op.skipNow] (NewT 0 "/tmp" "x" []))).core.parallel
        = true := by
  have h := claim_C8_monotone_state [Op.fail]
    (applyOps [Op.parallel, Op.skipNow] (NewT 0 "/tmp" "x" []))
  exact ⟨h.2.1 (by decide), h.2.2.1 (by decide), h.2.2.2 (by decide)⟩

/-- C4: each `Fail`/`Error`/`Errorf`/`Fatal`/`Fatalf` call increments the
failure counter by exactly one; over any such sequence on a fresh `T`
(terminating calls in isolated invocations), `FailedCount()` equals the
number of calls issued and `Failed()` holds iff that count is positive. -/
theorem claim_C4_failure_counting (now : Int) (osTempDir name : String)
    (options : List TOption) (ops : List FailOp) :
    (∀ (s : T) (op : FailOp),
      (applyFailOp op s).FailedCount = s.FailedCount + 1) ∧
    (runFailOps ops (NewT now osTempDir name options)).FailedCount
      = ops.length ∧
    ((runFailOps ops (NewT now osTempDir name options)).Failed = true ↔
      0 < ops.length) := by
  refine ⟨fun s op => failed_applyFailOp op s, ?_, ?_⟩
  · rw [T.FailedCount, failed_runFailOps, failed_NewT, Nat.zero_add]
  · rw [T.Failed]
    simp [failed_runFailOps, failed_NewT]


theorem subtests_applyOp (op : Op) (t : T) :
    ∃ tail, (applyOp op t).subtests = t.subtests ++ tail := by
  cases op
  case tempDir osMkdir =>
    rw [applyOp_tempDir]
    split
    · exact ⟨[], by simp⟩
    · exact ⟨[], by simp⟩
  case run now os name body =>
    refine ⟨[(body (t.subtestInit now os name)).1], ?_⟩
    simp only [applyOp, T.Run]
    split <;> simp [T.Fail]
  case setenv key value =>
    simp only [applyOp, T.Setenv]
    split <;> exact ⟨[], by simp⟩
  all_goals
    exact ⟨[], by
      simp [applyOp, T.Fail, T.FailNow, T.Error, T.Errorf, T.Fatal, T.Fatalf,
        T.Log, T.Logf, T.Skip, T.Skipf, T.SkipNow, T.goexit, T.Parallel,
        T.Helper, T.Cleanup]⟩

/-- C3: a child built by `Run` copies the parent's configuration
snapshot (abort flag, deadline, timeout flag, base temp dir, upstream
reporter) at the moment of the call, and no mutator operation on any
`T` (child or parent) ever changes a `T`'s configuration snapshot. -/
theorem claim_C3_config_inheritance (now : Int) (osTempDir : String) (t : T)
    (name : String) :
    configOf (t.subtestInit now osTempDir name) = configOf t ∧
    (∀ (ops : List Op) (s : T), configOf (applyOps ops s) = configOf s) := by
  constructor
  · simp [configOf, T.subtestInit, NewT]
  · exact fun ops s => configOf_applyOps ops s

/-- C1: `Run` marks the parent failed by exactly one additional `Fail()`
when the finished child is failed, leaves the parent's failure count
unchanged otherwise, and returns true iff the child did not fail. -/
theorem claim_C1_run_propagation (now : Int) (osTempDir : String) (t : T)
    (name : String) (body : T → T × Ctl) :
    ((body (t.subtestInit now osTempDir name)).1.Failed = true →
      (t.Run now osTempDir name body).1.core.failed = t.core.failed + 1) ∧
    ((body (t.subtestInit now osTempDir name)).1.Failed = false →
      (t.Run now osTempDir name body).1.core.failed = t.core.failed) ∧
    (t.Run now osTempDir name body).2
      = !(body (t.subtestInit now osTempDir name)).1.Failed := by
  refine ⟨?_, ?_, ?_⟩
  · intro h
    simp [T.Run, h, T.Fail]
  · intro h
    simp [T.Run, h]
  · simp [T.Run]

theorem claim_C1_run_propagation_witness :
    ((NewT 0 "/tmp" "Parent" []).Run 0 "/tmp" "sub"
        (fun s => (s.Fail, Ctl.cont))).1.core.failed
      = (NewT 0 "/tmp" "Parent" []).core.failed + 1 := by
  exact (claim_C1_run_propagation 0 "/tmp" (NewT 0 "/tmp" "Parent" []) "sub"
    (fun s => (s.Fail, Ctl.cont))).1 (by decide)


/-- C5: with abort enabled, `FailNow()` terminates the invoking thread
(so a step sequenced after it never executes) and `Aborted()` is true;
with abort disabled the following step does execute and `Aborted()` is
still true; `SkipNow()` sets `skipped` and has exactly the same
termination-or-record-intent behavior as `FailNow()`. -/
theorem claim_C5_abort_semantics (t : T) (g : T → T × Ctl) (now : Int) :
    (t.core.abort = true → andThen T.FailNow g t = t.FailNow) ∧
    (t.core.abort = false → andThen T.FailNow g t = g (t.FailNow).1) ∧
    (t.FailNow).1.core.aborted = true ∧
    ((TOption.withNoAbort.apply now t).core.abort = false) ∧
    (t.SkipNow).1.core.skipped = true ∧
    (t.SkipNow).2 = (t.FailNow).2 ∧
    (t.SkipNow).1.core.aborted = (t.FailNow).1.core.aborted := by
  refine ⟨?_, ?_, ?_, ?_, ?_, ?_, ?_⟩
  · intro h
    simp [andThen, T.FailNow, T.Fail, T.goexit, h]
  · intro h
    simp [andThen, T.FailNow, T.Fail, T.goexit, h]
  · simp [T.FailNow, T.Fail, T.goexit]
  · simp [TOption.apply]
  · simp [T.SkipNow, T.goexit]
  · simp [T.SkipNow, T.FailNow, T.Fail, T.goexit]
  · simp [T.SkipNow, T.FailNow, T.Fail, T.goexit]

theorem claim_C5_abort_semantics_witness :
    (andThen T.FailNow (fun s => (s.Fail, Ctl.cont)) (NewT 0 "/tmp" "a" [])
      = (NewT 0 "/tmp" "a" []).FailNow) ∧
    (andThen T.FailNow (fun s => (s.Fail, Ctl.cont))
        (NewT 0 "/tmp" "a" [TOption.withNoAbort])
      = (((NewT 0 "/tmp" "a" [TOption.withNoAbort]).FailNow).1.Fail,
          Ctl.cont)) := by
  constructor
  · exact (claim_C5_abort_semantics (NewT 0 "/tmp" "a" [])
      (fun s => (s.Fail, Ctl.cont)) 0).1 (by decide)
  · exact (claim_C5_abort_semantics (NewT 0 "/tmp" "a" [TOption.withNoAbort])
      (fun s => (s.Fail, Ctl.cont)) 0).2.1 (by decide)


theorem string_data_inj {a b : String} (h : a.data = b.data) : a = b :=
  congrArg String.mk h

theorem normalizeName_append (a b : String) :
    normalizeName (a ++ b) = normalizeName a ++ normalizeName b := by
  apply string_data_inj
  simp [normalizeName]

theorem normalizeName_eq_self (s : String) (h : ∀ c ∈ s.data, ¬ c = ' ') :
    normalizeName s = s := by
  have h2 : s.data.map (fun c => if c = ' ' then '_' else c) = s.data := by
    have := List.map_congr_left (l := s.data)
      (f := fun c => if c = ' ' then '_' else c) (g := id)
      (fun a ha => by simp [h a ha])
    simpa using this
  show String.mk (s.data.map (fun c => if c = ' ' then '_' else c)) = s
  rw [h2]

theorem normalizeName_idem (s : String) :
    normalizeName (normalizeName s) = normalizeName s := by
  apply normalizeName_eq_self
  intro c hc
  simp only [normalizeName] at hc
  rcases List.mem_map.mp hc with ⟨a, _, rfl⟩
  by_cases ha : a = ' ' <;> simp [ha]

theorem digitChar_ne_space (n : Nat) : ¬ Nat.digitChar n = ' ' := by
  by_cases h : n < 16
  · interval_cases n <;> decide
  · have h2 : Nat.digitChar n = '*' := by
      unfold Nat.digitChar
      repeat rw [if_neg (by omega)]
    rw [h2]
    decide

theorem toDigitsCore_no_space (b : Nat) :
    ∀ (fuel n : Nat) (ds : List Char), (∀ c ∈ ds, ¬ c = ' ') →
      ∀ c ∈ Nat.toDigitsCore b fuel n ds, ¬ c = ' ' := by
  intro fuel
  induction fuel with
  | zero => intro n ds h c hc; exact h c hc
  | succ fuel ih =>
    intro n ds h c hc
    simp only [Nat.toDigitsCore] at hc
    split at hc
    · rcases List.mem_cons.mp hc with rfl | hmem
      · exact digitChar_ne_space _
      · exact h c hmem
    · refine ih _ _ ?_ c hc
      intro x hx
      rcases List.mem_cons.mp hx with rfl | hmem
      · exact digitChar_ne_space _
      · exact h x hmem

theorem repr_no_space (n : Nat) : ∀ c ∈ (Nat.repr n).data, ¬ c = ' ' := by
  intro c hc
  have hd : (Nat.repr n).data = Nat.toDigits 10 n := rfl
  rw [hd, Nat.toDigits] at hc
  exact toDigitsCore_no_space 10 (n + 1) n [] (by simp) c hc

theorem normalizeName_pad2 (i : Nat) : normalizeName (pad2 i) = pad2 i := by
  unfold pad2
  split
  · rw [normalizeName_append]
    rw [normalizeName_eq_self "0" (by decide),
      normalizeName_eq_self _ (repr_no_space i)]
  · exact normalizeName_eq_self _ (repr_no_space i)


theorem subNameLoop_spec (used : List String) (name : String) :
    ∀ (fuel start i : Nat), start ≤ i → i < start + fuel →
      (∀ j, start ≤ j → j < i →
        used.contains (name ++ "#" ++ pad2 j) = true) →
      used.contains (name ++ "#" ++ pad2 i) = false →
      subNameLoop used name start fuel = name ++ "#" ++ pad2 i := by
  intro fuel
  induction fuel with
  | zero => intro start i h1 h2 _ _; omega
  | succ fuel ih =>
    intro start i h1 h2 hall hfree
    simp only [subNameLoop]
    by_cases hc : used.contains (name ++ "#" ++ pad2 start) = true
    · rw [if_pos hc]
      have hne : ¬ start = i := by
        intro e
        rw [e, hfree] at hc
        exact Bool.noConfusion hc
      exact ih (start + 1) i (by omega) (by omega)
        (fun j hj1 hj2 => hall j (by omega) hj2) hfree
    · have hieq : i = start := by
        by_contra hne
        exact hc (hall start (le_refl _) (by omega))
      rw [if_neg hc, hieq]

theorem subNameLoop_shape (used : List String) (name : String) :
    ∀ (fuel i : Nat), subNameLoop used name i fuel = name ∨
      ∃ j, subNameLoop used name i fuel = name ++ "#" ++ pad2 j := by
  intro fuel
  induction fuel with
  | zero => intro i; exact Or.inl rfl
  | succ fuel ih =>
    intro i
    simp only [subNameLoop]
    by_cases hc : used.contains (name ++ "#" ++ pad2 i) = true
    · rw [if_pos hc]; exact ih (i + 1)
    · rw [if_neg hc]; exact Or.inr ⟨i, rfl⟩

theorem newSubTestName_normalized (t : T) (name : String) :
    normalizeName (t.newSubTestName name) = t.newSubTestName name := by
  simp only [T.newSubTestName]
  by_cases h :
      t.core.subtestNames.contains (normalizeName name) = true
  · simp only [h, Bool.not_true, if_neg (by decide : ¬ (false = true))]
    rcases subNameLoop_shape t.core.subtestNames (normalizeName name)
        (t.core.subtestNames.length + 1) 1 with h1 | ⟨j, h1⟩
    · rw [h1, normalizeName_idem]
    · rw [h1, normalizeName_append, normalizeName_append, normalizeName_idem,
        normalizeName_pad2]
      rfl
  · simp only [Bool.not_eq_true] at h
    simp only [h, Bool.not_false, if_pos rfl]
    exact normalizeName_idem name


/-- C2: `Run` normalizes spaces in the requested sub-test name to
underscores and uses it as-is when unused; otherwise the first unused
`#NN` (zero-padded decimal, starting at 1) suffix is appended; the
child's full name is `parent.name + "/" + disambiguatedName` (just the
disambiguated name when the parent's name is empty); in particular two
`Run("my test", ...)` calls on a `T` named `"Parent"` yield children
named `"Parent/my_test"` and `"Parent/my_test#01"`. -/
theorem claim_C2_subtest_naming :
    (∀ (t : T) (name : String),
      t.core.subtestNames.contains (normalizeName name) = false →
      t.newSubTestName name = normalizeName name) ∧
    (∀ (t : T) (name : String) (i : Nat),
      t.core.subtestNames.contains (normalizeName name) = true →
      1 ≤ i → i ≤ t.core.subtestNames.length + 1 →
      (∀ j, 1 ≤ j → j < i →
        t.core.subtestNames.contains
          (normalizeName name ++ "#" ++ pad2 j) = true) →
      t.core.subtestNames.contains
        (normalizeName name ++ "#" ++ pad2 i) = false →
      t.newSubTestName name = normalizeName name ++ "#" ++ pad2 i) ∧
    (∀ (now : Int) (osTempDir : String) (t : T) (name : String),
      normalizeName t.core.name = t.core.name →
      (t.subtestInit now osTempDir name).Name =
        if ¬ t.core.name = "" then
          t.core.name ++ "/" ++ t.newSubTestName name
        else t.newSubTestName name) ∧
    ((((NewT 0 "/tmp" "Parent" []).Run 0 "/tmp" "my test"
        (fun s => (s, Ctl.cont))).1.subtests.map T.Name
      = ["Parent/my_test"]) ∧
     ((((NewT 0 "/tmp" "Parent" []).Run 0 "/tmp" "my test"
          (fun s => (s, Ctl.cont))).1.Run 0 "/tmp" "my test"
        (fun s => (s, Ctl.cont))).1.subtests.map T.Name
      = ["Parent/my_test", "Parent/my_test#01"])) := by
  refine ⟨?_, ?_, ?_, by decide, by decide⟩
  · intro t name h
    have h2 : ¬ normalizeName name ∈ t.core.subtestNames := by simpa using h
    simp [T.newSubTestName, h, h2]
  · intro t name i h hi1 hi2 hall hfree
    simp only [T.newSubTestName, h, Bool.not_true,
      if_neg (by decide : ¬ (false = true))]
    exact subNameLoop_spec t.core.subtestNames (normalizeName name)
      (t.core.subtestNames.length + 1) 1 i hi1 (by omega) hall hfree
  · intro now osTempDir t name h
    have hname : (t.subtestInit now osTempDir name).Name =
        normalizeName (if ¬ t.core.name = "" then
          t.core.name ++ "/" ++ t.newSubTestName name
        else t.newSubTestName name) := by
      simp only [T.subtestInit, NewT, T.Name]
      split <;> simp
    rw [hname]
    split
    · rw [normalizeName_append, normalizeName_append, h,
        newSubTestName_normalized]
      rfl
    · exact newSubTestName_normalized t name

theorem claim_C2_subtest_naming_witness :
    ((witnessT ["my_test"]).newSubTestName "my test" = "my_test#01") ∧
    ((witnessT []).newSubTestName "my test" = "my_test") := by
  constructor
  · have h := claim_C2_subtest_naming.2.1 (witnessT ["my_test"]) "my test" 1
      (by decide) (by decide) (by decide)
      (fun j hj1 hj2 => absurd (Nat.lt_of_lt_of_le hj2 hj1) (by omega))
      (by decide)
    simpa using h
  · have h := claim_C2_subtest_naming.1 (witnessT []) "my test" (by decide)
    simpa using h


/-- C6, counterexample: `Logf` decides the trailing newline by looking
at the format string, not at the formatted result; with format `"%s"`
and argument `"x\n"` the formatted result already ends in a newline yet
the recorded entry gains another one. -/
theorem claim_C6_logf_newline_counterexample :
    ((NewT 0 "/tmp" "x" []).Logf "%s" [GoValue.str "x\n"]).Output
      = ["x\n\n"] ∧
    sprintf "%s" [GoValue.str "x\n"] = "x\n" ∧
    ¬ ((NewT 0 "/tmp" "x" []).Logf "%s" [GoValue.str "x\n"]).Output
        = [sprintf "%s" [GoValue.str "x\n"]] := by
  refine ⟨by decide, by decide, by decide⟩

/-- C6 amended: `Logf` appends exactly one entry, namely the format
rendered after a newline is appended to the format string if and only if
the format string (not the formatted result) does not already end in a
newline. -/
theorem claim_C6_logf_newline_amended (t : T) (format : String)
    (args : List GoValue) :
    (t.Logf format args).Output = t.Output ++ [sprintf (fixFormat format) args] ∧
    (format.data.getLast? = some '\n' → fixFormat format = format) ∧
    (¬ format.data.getLast? = some '\n' →
      fixFormat format = format ++ "\n") := by
  refine ⟨?_, ?_, ?_⟩
  · simp [T.Logf, T.Output]
  · intro h
    simp [fixFormat, h]
  · intro h
    simp [fixFormat, h]

theorem claim_C6_logf_newline_amended_witness :
    fixFormat "got" = "got" ++ "\n" :=
  (claim_C6_logf_newline_amended (witnessT []) "got" []).2.2 (by decide)

/-- C7, counterexample: the claimed separator rule (a space only when
neither neighbor is already a string) contradicts the code, which uses
`fmt.Sprintln` and always separates operands with a space: on
`Error("a", "b")` the recorded entry is `"a b\n"`, not the rule's
`"ab\n"`. -/
theorem claim_C7_log_rendering_counterexample :
    ((NewT 0 "/tmp" "x" []).Error [GoValue.str "a", GoValue.str "b"]).Output
      = ["a b\n"] ∧
    sprintSpec [GoValue.str "a", GoValue.str "b"] = "ab\n" ∧
    ¬ ((NewT 0 "/tmp" "x" []).Error
        [GoValue.str "a", GoValue.str "b"]).Output
      = [sprintSpec [GoValue.str "a", GoValue.str "b"]] := by
  refine ⟨by decide, by decide, by decide⟩

/-- C7 amended: `Log` appends exactly one entry rendered with
`fmt.Sprintln` semantics — arguments' default string forms separated by
a single space between every pair of adjacent arguments, newline
appended; `Error("a","b")` appends exactly `"a b\n"` and increments the
failure count, and `Errorf("got %d", 4)` appends `"got 4\n"`. -/
theorem claim_C7_log_rendering_amended (t : T) (args : List GoValue) :
    (t.Log args).Output = t.Output ++ [sprintln args] ∧
    sprintln args = String.intercalate " " (args.map GoValue.render) ++ "\n" ∧
    (t.Error args).Output = t.Output ++ [sprintln args] ∧
    (t.Error args).FailedCount = t.FailedCount + 1 ∧
    (t.Error [GoValue.str "a", GoValue.str "b"]).Output
      = t.Output ++ ["a b\n"] ∧
    (t.Errorf "got %d" [GoValue.int 4]).Output
      = t.Output ++ ["got 4\n"] := by
  refine ⟨?_, rfl, ?_, ?_, ?_, ?_⟩
  · simp [T.Log, T.Output]
  · simp [T.Error, T.Log, T.Fail, T.Output]
  · simp [T.Error, T.Log, T.Fail, T.FailedCount]
  · simp [T.Error, T.Log, T.Fail, T.Output]
    rfl
  · simp [T.Errorf, T.Logf, T.Fail, T.Output]
    rfl

/-- C9: when directory creation fails inside `TempDir()`, the wrapped
error goes to the upstream reporter as a single terminal `Fatal` when
one is configured, and otherwise panics; in both cases the double's own
state (in particular its failure count) is unchanged. -/
theorem claim_C9_tempdir_failure (t : T) (e : String)
    (osMkdir : String → String → Except String String)
    (hfail : (t.core.mkdirTempFunc.getD osMkdir) t.core.baseTempdir
      "go-mocktesting*" = Except.error e) :
    (∀ r, t.core.testingT = some r →
      t.TempDir osMkdir = TempDirOutcome.reporterFatal r
        ("mocktesting: " ++ ("TempDir() failed to create directory: " ++ e))
        t) ∧
    (t.core.testingT = none →
      t.TempDir osMkdir = TempDirOutcome.panicked
        ("mocktesting: " ++ ("TempDir() failed to create directory: " ++ e))
        t) ∧
    applyOp (Op.tempDir osMkdir) t = t := by
  refine ⟨?_, ?_, ?_⟩
  · intro r hr
    simp [T.TempDir, hfail, hr]
  · intro hr
    simp [T.TempDir, hfail, hr]
  · rw [applyOp_tempDir, hfail]

theorem claim_C9_tempdir_failure_witness :
    ((NewT 0 "/tmp" "x" [TOption.withTestingT (some 7)]).TempDir
        (fun _ _ => Except.error "boom")
      = TempDirOutcome.reporterFatal 7
          ("mocktesting: "
            ++ ("TempDir() failed to create directory: " ++ "boom"))
          (NewT 0 "/tmp" "x" [TOption.withTestingT (some 7)])) ∧
    ((NewT 0 "/tmp" "x" []).TempDir (fun _ _ => Except.error "boom")
      = TempDirOutcome.panicked
          ("mocktesting: "
            ++ ("TempDir() failed to create directory: " ++ "boom"))
          (NewT 0 "/tmp" "x" [])) := by
  constructor
  · exact (claim_C9_tempdir_failure
      (NewT 0 "/tmp" "x" [TOption.withTestingT (some 7)]) "boom"
      (fun _ _ => Except.error "boom") (by rfl)).1 7 (by rfl)
  · exact (claim_C9_tempdir_failure (NewT 0 "/tmp" "x" []) "boom"
      (fun _ _ => Except.error "boom") (by rfl)).2.1 (by rfl)

/-- C10: `WithTimeout` with any strictly negative duration disables the
timeout exactly like a zero duration — afterwards `Deadline()` returns
the zero time and `false`. -/
theorem claim_C10_negative_timeout (now d : Int) (t : T) (h : d < 0) :
    ((TOption.withTimeout d).apply now t).Deadline = (0, false) ∧
    (TOption.withTimeout d).apply now t = (TOption.withTimeout 0).apply now t := by
  have hd : ¬ d > 0 := by omega
  constructor
  · simp [TOption.apply, if_neg hd, T.Deadline]
  · simp [TOption.apply, if_neg hd]

theorem claim_C10_negative_timeout_witness :
    ((TOption.withTimeout (-5)).apply 0 (witnessT [])).Deadline
      = (0, false) :=
  (claim_C10_negative_timeout 0 (-5) (witnessT []) (by decide)).1

end Mocktesting
